import Mathlib

/-!
# Verification of the fusion-server event dispatch core

A shallow embedding of the dispatch core of the `fusion-server` repository:
the dot/bracket path extractor, the pattern matcher, the match evaluator
(`src/core/utils/pattern-matcher.ts`), the listener selection and result
normalization of `FusionServer.handleListener`, the HTTP dispatch of
`FusionServer.handleController` (`src/fusion-server.ts`), the route-table
construction performed by the `Get`/`Controller` decorators
(`src/decorators/get.ts`), and the `FusionResponse` envelope class
(`src/core/classes/fusion-response.ts`).

JavaScript runtime values reachable by the dispatcher are modelled by the
`Value` type below (JSON-like data: null, strings, numbers, booleans,
arrays, objects).  `undefined` / a missing property is modelled as
`Option.none` at the use sites that can observe it.  JavaScript numbers are
modelled as `Int`.
-/

set_option autoImplicit false

mutual

/-- A JSON-like JavaScript value.  Objects keep their fields in insertion
order, as JavaScript objects do; keys are assumed unique. -/
inductive Value where
  | vNull
  | vStr (s : String)
  | vNum (n : Int)
  | vBool (b : Bool)
  | vArr (xs : ValueList)
  | vObj (fs : FieldList)

/-- A list of array elements (spelled out so that mutual structural
recursion over `Value` is available). -/
inductive ValueList where
  | nil
  | cons (v : Value) (rest : ValueList)

/-- An object's key/value fields in insertion order. -/
inductive FieldList where
  | nil
  | cons (k : String) (v : Value) (rest : FieldList)

end

/-- Length of a `ValueList`. -/
def ValueList.length : ValueList → Nat
  | .nil => 0
  | .cons _ rest => 1 + rest.length

/-- Index access into a `ValueList`, `none` when out of bounds.  Models
reading an own index property of a JavaScript array. -/
def ValueList.get? : ValueList → Nat → Option Value
  | .nil, _ => none
  | .cons v _, 0 => some v
  | .cons _ rest, n + 1 => rest.get? n

/-- First field with the given key.  Models reading an own property of a
JavaScript object (keys are unique in objects built at runtime). -/
def FieldList.lookup : FieldList → String → Option Value
  | .nil, _ => none
  | .cons k v rest, key => if k = key then some v else rest.lookup key

/-- The keys of an object's fields, in order: `Object.keys`. -/
def FieldList.keys : FieldList → List String
  | .nil => []
  | .cons k _ rest => k :: rest.keys

/-- Property read `v.key`: a field of an object, `undefined` (`none`)
otherwise.  Property reads on non-objects other than built-in properties
yield `undefined` in JavaScript; built-ins (e.g. `length`) are outside the
model. -/
def getField (v : Value) (key : String) : Option Value :=
  match v with
  | .vObj fs => fs.lookup key
  | _ => none

/-- JavaScript truthiness of a value.  (`NaN` is outside the `Int` number
model.) -/
def truthy : Value → Bool
  | .vNull => false
  | .vStr s => s ≠ ""
  | .vNum n => n ≠ 0
  | .vBool b => b
  | .vArr _ => true
  | .vObj _ => true

/-- Truthiness of the property read `evt.key`: `undefined` is falsy. -/
def truthyField (evt : Value) (key : String) : Bool :=
  match getField evt key with
  | some v => truthy v
  | none => false

mutual

/-- JavaScript `String(value)` coercion.  Arrays render as their elements
joined with `,` (null elements render empty), objects as
`[object Object]`. -/
def jsString : Value → String
  | .vNull => "null"
  | .vStr s => s
  | .vNum n => toString n
  | .vBool b => if b then "true" else "false"
  | .vArr xs => jsJoin xs
  | .vObj _ => "[object Object]"

/-- `Array.prototype.join(',')` over stringified elements. -/
def jsJoin : ValueList → String
  | .nil => ""
  | .cons .vNull .nil => ""
  | .cons v .nil => jsString v
  | .cons .vNull rest => "," ++ jsJoin rest
  | .cons v rest => jsString v ++ "," ++ jsJoin rest

end

/-- JSON escaping of a single character (the escapes `JSON.stringify`
produces for the characters appearing in this development). -/
def escapeChar (c : Char) : String :=
  if c = '"' then "\\\""
  else if c = '\\' then "\\\\"
  else if c = '\n' then "\\n"
  else if c = '\r' then "\\r"
  else if c = '\t' then "\\t"
  else String.mk [c]

/-- JSON escaping of a string body. -/
def jsonEscape (s : String) : String :=
  (s.data.map escapeChar).foldl (fun a b => a ++ b) ""

mutual

/-- `JSON.stringify` on the modelled values. -/
def jsonStringify : Value → String
  | .vNull => "null"
  | .vStr s => "\"" ++ jsonEscape s ++ "\""
  | .vNum n => toString n
  | .vBool b => if b then "true" else "false"
  | .vArr xs => "[" ++ jsonArr xs ++ "]"
  | .vObj fs => "\x7b" ++ jsonFields fs ++ "\x7d"

/-- Serialized array elements, comma separated. -/
def jsonArr : ValueList → String
  | .nil => ""
  | .cons v .nil => jsonStringify v
  | .cons v rest => jsonStringify v ++ "," ++ jsonArr rest

/-- Serialized object fields, comma separated. -/
def jsonFields : FieldList → String
  | .nil => ""
  | .cons k v .nil => "\"" ++ jsonEscape k ++ "\":" ++ jsonStringify v
  | .cons k v rest =>
      "\"" ++ jsonEscape k ++ "\":" ++ jsonStringify v ++ "," ++ jsonFields rest

end

/-! ## Path Extractor (`extractValue` in `src/core/utils/pattern-matcher.ts`) -/

/-- Bracket normalization `path.replace(/\[(\d+)\]/g, '.$1')` as a
left-to-right scan.  The first argument is `none` while scanning normally
and `some ds` (pending digits, reversed) after an opening bracket with the
digits seen so far. -/
def nbAux : Option (List Char) → List Char → List Char
  | none, [] => []
  | none, c :: rest =>
      if c = '[' then nbAux (some []) rest else c :: nbAux none rest
  | some ds, [] => '[' :: ds.reverse
  | some ds, c :: rest =>
      if c.isDigit then nbAux (some (c :: ds)) rest
      else if c = ']' then
        match ds with
        | [] => '[' :: ']' :: nbAux none rest
        | _ => '.' :: (ds.reverse ++ nbAux none rest)
      else if c = '[' then '[' :: (ds.reverse ++ nbAux (some []) rest)
      else '[' :: (ds.reverse ++ (c :: nbAux none rest))

/-- `String.prototype.split` with a one-character separator. -/
def splitChars (sep : Char) : List Char → List (List Char)
  | [] => [[]]
  | c :: rest =>
      match splitChars sep rest with
      | [] => [[]]
      | g :: gs => if c = sep then [] :: g :: gs else (c :: g) :: gs

/-- `path.replace(/\[(\d+)\]/g, '.$1').split('.').filter(p => p !== '')`. -/
def parsePath (path : String) : List String :=
  ((splitChars '.' (nbAux none path.data)).map String.mk).filter
    (fun s => s != "")

/-- The regex test `/^\d+$/.test(part)`. -/
def isIndexStr (s : String) : Bool :=
  !s.data.isEmpty && s.data.all Char.isDigit

/-- `parseInt(part, 10)` on an all-digit string. -/
def decimalNat (l : List Char) : Nat :=
  l.foldl (fun a c => a * 10 + (c.toNat - 48)) 0

/-- The segment walk of `extractValue`: `null` intermediates, out-of-bounds
indices, and absent keys all yield `undefined` (`none`).  A numeric segment
indexes an array; any segment reads an object field; other values have no
own properties in the model. -/
def walkPath : Value → List String → Option Value
  | current, [] => some current
  | .vNull, _ :: _ => none
  | .vArr xs, part :: rest =>
      if isIndexStr part then
        match xs.get? (decimalNat part.data) with
        | some elem => walkPath elem rest
        | none => none
      else none
  | .vObj fs, part :: rest =>
      match fs.lookup part with
      | some v => walkPath v rest
      | none => none
  | _, _ :: _ => none

/-- `extractValue(obj, path)`: dot/bracket path resolution, `none` when not
found (`undefined` in the source). -/
def extractValue (obj : Value) (path : String) : Option Value :=
  match obj with
  | .vNull => none
  | _ => if path = "" then none else walkPath obj (parsePath path)

/-! ## Pattern Matcher (`matchPattern`, `matchesPatterns`) -/

/-- A pattern expression: a single string pattern or an OR-array of string
patterns (the source type `string | string[]`). -/
inductive PatternExpr where
  | str (s : String)
  | oneOf (alts : List String)

/-- Prefix test on character lists. -/
def charsStartWith : List Char → List Char → Bool
  | [], _ => true
  | _ :: _, [] => false
  | a :: as, b :: bs => a = b && charsStartWith as bs

/-- `valueStr.startsWith(pre)`. -/
def strStartsWith (s pre : String) : Bool :=
  charsStartWith pre.data s.data

/-- `pattern.endsWith('*')`. -/
def endsWithStar (p : String) : Bool :=
  match p.data.getLast? with
  | some c => c = '*'
  | none => false

/-- String pattern test on an already-stringified non-null value: `'*'` is
an existence check, a trailing `*` is a prefix match against
`pattern.slice(0, -1)`, anything else is exact equality. -/
def matchPatternStr (valueStr : String) (p : String) : Bool :=
  if p = "*" then true
  else if endsWithStar p then strStartsWith valueStr (String.mk p.data.dropLast)
  else valueStr = p

/-- `matchPattern(value, pattern)`.  The value is `none` for
`undefined`/NOT_FOUND; `value == null` is checked first, so null and
undefined never match any pattern.  An array pattern succeeds when some
element pattern matches the (non-null) value. -/
def matchPattern (value : Option Value) (pattern : PatternExpr) : Bool :=
  match value with
  | none => false
  | some .vNull => false
  | some v =>
    match pattern with
    | .oneOf alts => alts.any (fun p => matchPatternStr (jsString v) p)
    | .str p => matchPatternStr (jsString v) p

/-- The runtime states of `config.match` observed by `matchesPatterns`:
`absent` for a falsy `match` field, `notMapping` for a truthy non-object
one, `mapping` for an object with its path/pattern entries in key order. -/
inductive MatchConfig where
  | absent
  | notMapping
  | mapping (entries : List (String × PatternExpr))

/-- The AND loop of `matchesPatterns`: every entry's extracted value must
match its pattern. -/
def matchEntries (event : Value) : List (String × PatternExpr) → Bool
  | [] => true
  | (path, pat) :: rest =>
      if matchPattern (extractValue event path) pat then matchEntries event rest
      else false

/-- `matchesPatterns(event, config)`: false for an absent or non-object
`match`, false for an empty mapping, otherwise the AND of all entries. -/
def matchesPatterns (event : Value) (config : MatchConfig) : Bool :=
  match config with
  | .absent => false
  | .notMapping => false
  | .mapping entries =>
      if entries.isEmpty then false else matchEntries event entries

/-! ## Listener tables and selection (`FusionServer.handleListener`) -/

/-- One entry of `FusionServer.listeners.patterns`: the registered handler
token (modelled as a string identifier) and its match configuration. -/
structure PatternEntry where
  handler : String
  config : MatchConfig

/-- `FusionServer.listeners`: the exact event-name map (name to handler
token) and the ordered pattern list. -/
structure Listeners where
  eventName : List (String × String)
  patterns : List PatternEntry

/-- Generic JavaScript-object lookup on a key/value association list with
unique keys. -/
def objLookup {α : Type} : List (String × α) → String → Option α
  | [], _ => none
  | (k, v) :: rest, key => if k = key then some v else objLookup rest key

/-- Assignment `obj[key] = v`: replaces an existing key in place, appends a
new one. -/
def objInsert {α : Type} : List (String × α) → String → α → List (String × α)
  | [], key, v => [(key, v)]
  | (k0, v0) :: rest, key, v =>
      if k0 = key then (key, v) :: rest else (k0, v0) :: objInsert rest key v

/-- `Object.assign(base, entries)`: assign each entry in order. -/
def objAssign {α : Type} (base : List (String × α))
    (entries : List (String × α)) : List (String × α) :=
  entries.foldl (fun acc kv => objInsert acc kv.1 kv.2) base

/-- Whether a dispatched event selects an event-name listener: the guard
`evt.event && evt.event in this.listeners.eventName` followed by the
indexing `this.listeners.eventName[evt.event]` (property keys are the
string coercion of the field value). -/
def eventNameLookup (L : Listeners) (evt : Value) : Option String :=
  match getField evt "event" with
  | some v => if truthy v then objLookup L.eventName (jsString v) else none
  | none => none

/-- How a listener destination was selected. -/
inductive MatchKind where
  | eventName
  | pattern
deriving DecidableEq

/-- The pattern loop of `handleListener`: front-to-back scan, first entry
whose configuration matches wins. -/
def scanPatterns (evt : Value) : List PatternEntry → Option (String × MatchKind)
  | [] => none
  | e :: rest =>
      if matchesPatterns evt e.config then some (e.handler, .pattern)
      else scanPatterns evt rest

/-- The destination-selection portion of `handleListener` (lines 205-222 of
`src/fusion-server.ts`): priority 1 is the event-name lookup, priority 2
the ordered pattern scan; `none` when no listener matched. -/
def selectListener (L : Listeners) (evt : Value) : Option (String × MatchKind) :=
  match eventNameLookup L evt with
  | some h => some (h, .eventName)
  | none => scanPatterns evt L.patterns

/-- `FusionServer.shouldHandleAsListener`: a truthy `evt.event` forces
listener dispatch; a truthy `httpMethod` and `resource` force controller
dispatch; otherwise listener dispatch exactly when pattern listeners are
registered. -/
def shouldHandleAsListener (L : Listeners) (evt : Value) : Bool :=
  if truthyField evt "event" then true
  else if truthyField evt "httpMethod" && truthyField evt "resource" then false
  else if L.patterns.length > 0 then true
  else false

/-! ## `FusionResponse` (`src/core/classes/fusion-response.ts`) -/

/-- The state of a `FusionResponse` instance: `_statusCode` (default 200),
`_headers` (default empty), `_body` (default null) and `_isBase64Encoded`
(default false). -/
structure FusionResponse where
  statusCode : Int := 200
  headers : List (String × String) := []
  body : Value := Value.vNull
  isBase64Encoded : Bool := false

/-- The API Gateway envelope `{statusCode, headers, body}`.  The source
adds the key `isBase64Encoded: true` only when set; the model keeps a
boolean field where `false` stands for the absent key. -/
structure HttpEnvelope where
  statusCode : Int
  headers : List (String × String)
  body : String
  isBase64Encoded : Bool := false

/-- `FusionResponse.toObject()`: the raw body. -/
def FusionResponse.toObject (r : FusionResponse) : Value :=
  r.body

/-- `FusionResponse.toResponse()`: null body serializes to the empty
string, a string body is used verbatim, any other body is JSON text with
`Content-Type: application/json` defaulted when that header is unset or
empty. -/
def FusionResponse.toResponse (r : FusionResponse) : HttpEnvelope :=
  match r.body with
  | .vNull =>
      { statusCode := r.statusCode, headers := r.headers, body := "",
        isBase64Encoded := r.isBase64Encoded }
  | .vStr s =>
      { statusCode := r.statusCode, headers := r.headers, body := s,
        isBase64Encoded := r.isBase64Encoded }
  | b =>
      let headers :=
        match objLookup r.headers "Content-Type" with
        | some ct =>
            if ct = "" then objInsert r.headers "Content-Type" "application/json"
            else r.headers
        | none => objInsert r.headers "Content-Type" "application/json"
      { statusCode := r.statusCode, headers := headers,
        body := jsonStringify b, isBase64Encoded := r.isBase64Encoded }

/-! ## Listener dispatch outcome (`handleListener`, lines 203-289) -/

/-- A thrown JavaScript error as the dispatcher observes it: its `message`
and its optional numeric `code` (set by the `FusionException` subclasses,
absent on plain `Error`s). -/
structure JsError where
  message : String
  code : Option Int := none

/-- `x || d` on strings: the default replaces an empty (falsy) string. -/
def jsOrStr (s d : String) : String :=
  if s = "" then d else s

/-- What a resolved listener's invocation did; the resolution failures are
the two guarded checks of `handleListener`. -/
inductive ListenerInvoke where
  | resolveFailed
  | noHandleMethod
  | threw (e : JsError)
  | returnedFusion (r : FusionResponse)
  | returnedPlain (v : Option Value)

/-- The `{success: false, body: {message, event}}` failure payload. -/
structure FailureBody where
  message : String
  event : Value

/-- The value `handleListener` resolves with: an API Gateway envelope (a
`FusionResponse` with custom headers or status), the raw body of a plain
`FusionResponse`, the legacy `{success: true, matchType, body}` wrapper, or
the `{success: false, body}` failure shape. -/
inductive ListenerOutput where
  | httpShaped (env : HttpEnvelope)
  | raw (v : Value)
  | wrapped (matchType : MatchKind) (body : Option Value)
  | failure (body : FailureBody)

/-- `evt.event || 'pattern-matched'` as reported in failure payloads. -/
def eventTag (evt : Value) : Value :=
  match getField evt "event" with
  | some v => if truthy v then v else Value.vStr "pattern-matched"
  | none => Value.vStr "pattern-matched"

/-- `Object.keys(evt)` (empty for non-objects). -/
def jsKeys : Value → List String
  | .vObj fs => fs.keys
  | _ => []

/-- Join a list of strings with a separator. -/
def joinWith (sep : String) : List String → String
  | [] => ""
  | [x] => x
  | x :: xs => x ++ sep ++ joinWith sep xs

/-- The descriptive no-listener error message: the literal event name when
one is truthy, otherwise the first ten top-level keys with an ellipsis
marker when keys were truncated. -/
def noListenerMessage (evt : Value) : String :=
  match getField evt "event" with
  | some v =>
      if truthy v then "Unregistered listener for event: " ++ jsString v
      else noPatternMessage evt
  | none => noPatternMessage evt
where
  noPatternMessage (evt : Value) : String :=
    "No pattern-matched listener found for event structure. Event keys: " ++
      joinWith ", " ((jsKeys evt).take 10) ++
      (if (jsKeys evt).length > 10 then "..." else "")

/-- `FusionServer.handleListener`: select a destination, invoke it (the
external resolver and handler behavior are supplied as `behave`), and
normalize the result.  Every failure, including the no-listener error
thrown inside the `try`, lands in the `catch` and becomes the
`{success: false, body}` shape. -/
def handleListener (L : Listeners) (behave : String → ListenerInvoke)
    (evt : Value) : ListenerOutput :=
  match selectListener L evt with
  | none => .failure ⟨noListenerMessage evt, eventTag evt⟩
  | some (h, mk) =>
    match behave h with
    | .resolveFailed =>
        .failure ⟨"Failed to resolve listener instance", eventTag evt⟩
    | .noHandleMethod =>
        .failure ⟨"Listener does not implement handle() method", eventTag evt⟩
    | .threw e =>
        .failure ⟨jsOrStr e.message "Listener execution failed", eventTag evt⟩
    | .returnedFusion r =>
        if r.headers.length > 0 ∨ r.statusCode ≠ 200 then .httpShaped r.toResponse
        else .raw r.toObject
    | .returnedPlain v => .wrapped mk v

/-! ## CORS (`FusionServer.applyCorsHeaders`) -/

/-- The `ICorsConfig` options record. -/
structure CorsConfig where
  enabled : Bool
  allowOrigins : Option (List String) := none
  allowMethods : Option (List String) := none
  allowHeaders : Option (List String) := none
  exposeHeaders : Option (List String) := none
  credentials : Bool := false
  maxAge : Option Int := none

/-- The origin branch of `applyCorsHeaders`: echo a listed caller origin,
else `*` when listed, else the first configured origin. -/
def corsOriginHeader (origins : List String) (origin : Option String)
    (headers : List (String × String)) : List (String × String) :=
  match origin with
  | some o =>
      if origins.contains o then
        objInsert headers "Access-Control-Allow-Origin" o
      else if origins.contains "*" then
        objInsert headers "Access-Control-Allow-Origin" "*"
      else
        match origins with
        | o0 :: _ => objInsert headers "Access-Control-Allow-Origin" o0
        | [] => headers
  | none =>
      if origins.contains "*" then
        objInsert headers "Access-Control-Allow-Origin" "*"
      else
        match origins with
        | o0 :: _ => objInsert headers "Access-Control-Allow-Origin" o0
        | [] => headers

/-- `FusionServer.applyCorsHeaders` (a falsy caller origin is modelled as
`none`): mutates the header map when CORS is enabled. -/
def applyCorsHeaders (cors : Option CorsConfig)
    (headers : List (String × String)) (origin : Option String) :
    List (String × String) :=
  match cors with
  | none => headers
  | some cfg =>
    if !cfg.enabled then headers
    else
      let h1 :=
        match cfg.allowOrigins with
        | some origins => corsOriginHeader origins origin headers
        | none => headers
      let h2 :=
        match cfg.allowMethods with
        | some ms =>
            if ms.length > 0 then
              objInsert h1 "Access-Control-Allow-Methods" (joinWith ", " ms)
            else h1
        | none => h1
      let h3 :=
        match cfg.allowHeaders with
        | some hs =>
            if hs.length > 0 then
              objInsert h2 "Access-Control-Allow-Headers" (joinWith ", " hs)
            else h2
        | none => h2
      let h4 :=
        match cfg.exposeHeaders with
        | some es =>
            if es.length > 0 then
              objInsert h3 "Access-Control-Expose-Headers" (joinWith ", " es)
            else h3
        | none => h3
      let h5 :=
        if cfg.credentials then
          objInsert h4 "Access-Control-Allow-Credentials" "true"
        else h4
      match cfg.maxAge with
      | some n => objInsert h5 "Access-Control-Max-Age" (toString n)
      | none => h5

/-! ## Route registration (`Get` decorator and `Controller` decorator) -/

/-- The `Get(route?)` decorator body: add `gets[route || ''] = propertyKey`
to the accumulated per-verb fragment map. -/
def applyGet (route : Option String) (propertyKey : String)
    (gets : List (String × String)) : List (String × String) :=
  objInsert gets (route.getD "") propertyKey

/-- The per-verb transformation inside the `Controller(route)` decorator:
each local fragment key becomes `route + localPath` and each destination
becomes `route + '|' + methodName`, in key order. -/
def controllerTransform (route : String) (frags : List (String × String)) :
    List (String × String) :=
  frags.foldl
    (fun acc kv => objInsert acc (route ++ kv.1) (route ++ "|" ++ kv.2)) []

/-- `createHandler`'s merge of each controller's transformed per-verb map
into the shared table (`Object.assign(this.GET, ...)` over the controller
list). -/
def buildVerbTable (perController : List (List (String × String))) :
    List (String × String) :=
  perController.foldl objAssign []

/-! ## HTTP dispatch (`FusionServer.handleController`, lines 338-432) -/

/-- The per-verb route tables and registered controller base paths of a
`FusionServer` instance after `createHandler`, plus its CORS
configuration. -/
structure ServerModel where
  getTable : List (String × String) := []
  postTable : List (String × String) := []
  putTable : List (String × String) := []
  deleteTable : List (String × String) := []
  patchTable : List (String × String) := []
  controllers : List String := []
  cors : Option CorsConfig := none

/-- The dynamic table read `(this as any)[event.httpMethod]`, restricted to
the five verb tables; any other method string reads no table (behaves as
`undefined`). -/
def verbTable (S : ServerModel) : String → Option (List (String × String))
  | "GET" => some S.getTable
  | "POST" => some S.postTable
  | "PUT" => some S.putTable
  | "DELETE" => some S.deleteTable
  | "PATCH" => some S.patchTable
  | _ => none

/-- The fields of the inbound API Gateway event that `handleController`
reads: the verb, the resource path template, the raw headers, and
`requestContext?.requestId`. -/
structure HttpEvent where
  httpMethod : String
  resource : String
  headers : List (String × String) := []
  requestId : Option String := none

/-- `event.headers?.origin || event.headers?.Origin`, with a falsy result
collapsed to `none` (only its truthiness is ever observed downstream). -/
def originOf (evt : HttpEvent) : Option String :=
  match objLookup evt.headers "origin" with
  | some s =>
      if s = "" then
        match objLookup evt.headers "Origin" with
        | some t => if t = "" then none else some t
        | none => none
      else some s
  | none =>
      match objLookup evt.headers "Origin" with
      | some t => if t = "" then none else some t
      | none => none

/-- `routeConfig.split('|')` destructured into its first two parts; `none`
models the `Invalid route configuration` throw on a falsy part. -/
def splitRoute (cfg : String) : Option (String × String) :=
  match (splitChars '|' cfg.data).map String.mk with
  | a :: b :: _ => if a = "" ∨ b = "" then none else some (a, b)
  | _ => none

/-- What the resolved controller instance looked like: the container threw,
resolved to nothing, or resolved to an instance that does / does not expose
the named method as a function. -/
inductive ResolveOutcome where
  | threw (e : JsError)
  | failed
  | ok (hasMethod : Bool)

/-- The value an invoked controller method returned: a `FusionResponse`
instance, `undefined`/`null`, or any other value. -/
inductive ControllerReturn where
  | fusion (r : FusionResponse)
  | empty
  | value (v : Value)

/-- What the invoked controller method did: threw/rejected, or returned. -/
inductive ControllerInvoke where
  | threw (e : JsError)
  | returned (r : ControllerReturn)

/-- The result normalization of `handleController` after the handler
returns: a `FusionResponse` is emitted via `toResponse` with CORS headers
merged in; `undefined`/`null` becomes a 204 with empty body; anything else
a 200 with JSON body. -/
def normalizeControllerResult (S : ServerModel) (evt : HttpEvent)
    (r : ControllerReturn) : HttpEnvelope :=
  match r with
  | .fusion f =>
      let resp := f.toResponse
      { resp with headers := applyCorsHeaders S.cors resp.headers (originOf evt) }
  | .empty =>
      { statusCode := 204,
        headers := applyCorsHeaders S.cors [] (originOf evt), body := "" }
  | .value v =>
      { statusCode := 200,
        headers :=
          applyCorsHeaders S.cors [("Content-Type", "application/json")]
            (originOf evt),
        body := jsonStringify v }

/-- The `try` block of `handleController`: route lookup, destination split,
controller-class lookup, resolution, method check, invocation, and result
normalization.  Every `throw` of the source is an `Except.error` carrying
the thrown error. -/
def controllerTry (S : ServerModel) (evt : HttpEvent)
    (resolve : ResolveOutcome) (invoke : ControllerInvoke) :
    Except JsError HttpEnvelope :=
  let routeKey := evt.httpMethod ++ " " ++ evt.resource
  match verbTable S evt.httpMethod with
  | none => .error ⟨"Unregistered controller for route " ++ routeKey, none⟩
  | some tbl =>
    match objLookup tbl evt.resource with
    | none => .error ⟨"Unregistered controller for route " ++ routeKey, none⟩
    | some cfg =>
      if cfg = "" then
        .error ⟨"Unregistered controller for route " ++ routeKey, none⟩
      else
        match splitRoute cfg with
        | none =>
            .error ⟨"Invalid route configuration for " ++ routeKey ++ ": " ++ cfg,
              none⟩
        | some (cpath, handler) =>
          if S.controllers.contains cpath then
            match resolve with
            | .threw e => .error e
            | .failed =>
                .error ⟨"Failed to resolve controller instance for: " ++ cpath,
                  none⟩
            | .ok hasMethod =>
              if hasMethod then
                match invoke with
                | .threw e => .error e
                | .returned r => .ok (normalizeControllerResult S evt r)
              else
                .error ⟨"Method \x27" ++ handler ++ "\x27 not found in controller \x27" ++
                  cpath ++ "\x27 or is not a function", none⟩
          else .error ⟨"Controller class not found for path: " ++ cpath, none⟩

/-- `error.code || 500`: the carried code when truthy (present and
nonzero), 500 otherwise. -/
def statusOfCode (code : Option Int) : Int :=
  match code with
  | some c => if c = 0 then 500 else c
  | none => 500

/-- The `{message, requestId}` error payload; `JSON.stringify` drops the
`requestId` key when the event carries none (`undefined`). -/
def errorBody (message : String) (requestId : Option String) : Value :=
  match requestId with
  | some r =>
      Value.vObj (.cons "message" (Value.vStr message)
        (.cons "requestId" (Value.vStr r) .nil))
  | none => Value.vObj (.cons "message" (Value.vStr message) .nil)

/-- `FusionServer.handleController`: the `try` block's envelope, or the
`catch` clause's error envelope with status `error.code || 500`, JSON body
`{message, requestId}` and CORS headers applied. -/
def handleController (S : ServerModel) (evt : HttpEvent)
    (resolve : ResolveOutcome) (invoke : ControllerInvoke) : HttpEnvelope :=
  match controllerTry S evt resolve invoke with
  | .ok env => env
  | .error e =>
      { statusCode := statusOfCode e.code,
        headers :=
          applyCorsHeaders S.cors [("Content-Type", "application/json")]
            (originOf evt),
        body :=
          jsonStringify
            (errorBody (jsOrStr e.message "Internal server error") evt.requestId) }

/-! ## Theorems -/

theorem ValueList.get?_of_le :
    ∀ (xs : ValueList) (n : Nat), xs.length ≤ n → xs.get? n = none
  | .nil, _, _ => rfl
  | .cons _ rest, 0, h => absurd h (by simp [ValueList.length])
  | .cons _ rest, n + 1, h =>
      ValueList.get?_of_le rest n (by simp [ValueList.length] at h; omega)

/-- Claim C5 — the match evaluator returns false when the match
configuration is absent, is not a mapping, or has zero entries; in
particular an empty configuration never matches any event and an absent
configuration never universally matches. -/
theorem matchesPatterns_degenerate_false (event : Value) :
    matchesPatterns event MatchConfig.absent = false ∧
    matchesPatterns event MatchConfig.notMapping = false ∧
    matchesPatterns event (MatchConfig.mapping []) = false :=
  ⟨rfl, rfl, rfl⟩

/-- Claim C6 — a NOT_FOUND (`none`) or null value never matches any
pattern expression, of any shape, including the existence pattern. -/
theorem null_matches_no_pattern (p : PatternExpr) :
    matchPattern none p = false ∧
    matchPattern (some Value.vNull) p = false :=
  ⟨rfl, rfl⟩

/-- Claim C10 — an empty OR-array pattern matches no value, including
non-null values: the empty set of alternatives matches nothing. -/
theorem empty_or_pattern_matches_nothing (v : Option Value) :
    matchPattern v (PatternExpr.oneOf []) = false := by
  cases v with
  | none => rfl
  | some w => cases w <;> rfl

/-- Claim C7 — `extractValue` is a total function (so it cannot raise), and
every failure state collapses to NOT_FOUND (`none`): an empty path, a null
root, a null intermediate value, a non-container intermediate value, an
out-of-bounds array index, and an absent object key. -/
theorem extractValue_failures_collapse (c : Value) (p : String) :
    (p = "" → extractValue c p = none) ∧
    (c = Value.vNull → extractValue c p = none) ∧
    (∀ part parts, walkPath Value.vNull (part :: parts) = none) ∧
    (∀ s part parts, walkPath (Value.vStr s) (part :: parts) = none) ∧
    (∀ n part parts, walkPath (Value.vNum n) (part :: parts) = none) ∧
    (∀ b part parts, walkPath (Value.vBool b) (part :: parts) = none) ∧
    (∀ xs part parts,
        isIndexStr part = false ∨ xs.length ≤ decimalNat part.data →
        walkPath (Value.vArr xs) (part :: parts) = none) ∧
    (∀ fs part parts, fs.lookup part = none →
        walkPath (Value.vObj fs) (part :: parts) = none) := by
  refine ⟨?_, ?_, fun _ _ => rfl, fun _ _ _ => rfl, fun _ _ _ => rfl,
    fun _ _ _ => rfl, ?_, ?_⟩
  · intro h
    subst h
    cases c <;> simp [extractValue]
  · intro h
    subst h
    rfl
  · intro xs part parts h
    rcases h with h | h
    · simp [walkPath, h]
    · simp [walkPath, ValueList.get?_of_le xs _ h]
  · intro fs part parts h
    simp [walkPath, h]

theorem extractValue_failures_collapse_witness :
    extractValue (Value.vObj .nil) "" = none ∧
    extractValue Value.vNull "a.b" = none ∧
    walkPath (Value.vArr .nil) ["0"] = none ∧
    walkPath (Value.vObj .nil) ["missing"] = none := by
  refine ⟨(extractValue_failures_collapse (Value.vObj .nil) "").1 rfl,
    (extractValue_failures_collapse Value.vNull "a.b").2.1 rfl,
    (extractValue_failures_collapse (Value.vObj .nil) "x").2.2.2.2.2.2.1
      ValueList.nil "0" [] (Or.inr (by decide)),
    (extractValue_failures_collapse (Value.vObj .nil) "x").2.2.2.2.2.2.2
      FieldList.nil "missing" [] rfl⟩

theorem scanPatterns_kind (evt : Value) :
    ∀ (ps : List PatternEntry) (h : String) (k : MatchKind),
      scanPatterns evt ps = some (h, k) → k = MatchKind.pattern := by
  intro ps
  induction ps with
  | nil =>
    intro h k hk
    exact absurd hk (by simp [scanPatterns])
  | cons e rest ih =>
    intro h k hk
    simp only [scanPatterns] at hk
    split at hk
    · cases hk
      rfl
    · exact ih h k hk

theorem scanPatterns_first (evt : Value) :
    ∀ (ps₁ : List PatternEntry) (e : PatternEntry) (ps₂ : List PatternEntry),
      (∀ x ∈ ps₁, matchesPatterns evt x.config = false) →
      matchesPatterns evt e.config = true →
      scanPatterns evt (ps₁ ++ e :: ps₂) = some (e.handler, MatchKind.pattern) := by
  intro ps₁
  induction ps₁ with
  | nil =>
    intro e ps₂ _ he
    simp [scanPatterns, he]
  | cons x rest ih =>
    intro e ps₂ hall he
    have hx : matchesPatterns evt x.config = false := hall x (by simp)
    simp only [List.cons_append, scanPatterns, hx, Bool.false_eq_true, if_false]
    exact ih e ps₂ (fun y hy => hall y (List.mem_cons_of_mem x hy)) he

/-- Claim C2 — with no exact event-name match, the dispatcher scans the
ordered pattern list front to back and selects the first entry whose match
configuration evaluates true; entries after it are irrelevant, so with two
matching listeners registered in order [A, B] it always selects A. -/
theorem first_matching_pattern_selected (L : Listeners) (evt : Value)
    (ps₁ : List PatternEntry) (e : PatternEntry) (ps₂ : List PatternEntry)
    (hno : eventNameLookup L evt = none)
    (hps : L.patterns = ps₁ ++ e :: ps₂)
    (hfail : ∀ x ∈ ps₁, matchesPatterns evt x.config = false)
    (hmatch : matchesPatterns evt e.config = true) :
    selectListener L evt = some (e.handler, MatchKind.pattern) := by
  simp only [selectListener, hno, hps]
  exact scanPatterns_first evt ps₁ e ps₂ hfail hmatch

theorem first_matching_pattern_selected_witness :
    selectListener
      ⟨[], [⟨"A", .mapping [("kind", .str "x")]⟩,
            ⟨"B", .mapping [("kind", .str "x")]⟩]⟩
      (Value.vObj (.cons "kind" (Value.vStr "x") .nil))
      = some ("A", MatchKind.pattern) :=
  first_matching_pattern_selected
    ⟨[], [⟨"A", .mapping [("kind", .str "x")]⟩,
          ⟨"B", .mapping [("kind", .str "x")]⟩]⟩
    (Value.vObj (.cons "kind" (Value.vStr "x") .nil))
    [] ⟨"A", .mapping [("kind", .str "x")]⟩
    [⟨"B", .mapping [("kind", .str "x")]⟩]
    rfl rfl (fun x hx => absurd hx (List.not_mem_nil x)) rfl

/-- Claim C1 as stated is refuted by a falsy event-name value: the event
`{event: ''}` has its event-name field present, and `''` is a key of the
exact-match table, yet the guard `evt.event &&` tests truthiness, so the
dispatcher selects the matching pattern listener instead. -/
theorem present_key_not_always_selected :
    getField (Value.vObj (.cons "event" (Value.vStr "") .nil)) "event"
      = some (Value.vStr "") ∧
    objLookup
      (Listeners.mk [("", "H1")]
        [⟨"H2", .mapping [("event", .str "*")]⟩]).eventName
      (jsString (Value.vStr "")) = some "H1" ∧
    selectListener
      (Listeners.mk [("", "H1")] [⟨"H2", .mapping [("event", .str "*")]⟩])
      (Value.vObj (.cons "event" (Value.vStr "") .nil))
      = some ("H2", MatchKind.pattern) :=
  ⟨rfl, rfl, rfl⟩

/-- Claim C1, amended — for every dispatched event whose event-name field
is present with a truthy value that is a key of the exact-match table, the
dispatcher selects that event-name listener (match-kind "eventName"),
never a pattern listener, even when a registered pattern listener's
configuration also evaluates true on the event. -/
theorem truthy_eventName_absolute_priority (L : Listeners) (evt : Value)
    (v : Value) (h : String)
    (hf : getField evt "event" = some v)
    (ht : truthy v = true)
    (hk : objLookup L.eventName (jsString v) = some h) :
    selectListener L evt = some (h, MatchKind.eventName) := by
  simp only [selectListener, eventNameLookup, hf, ht, hk, if_true]

theorem truthy_eventName_absolute_priority_witness :
    selectListener
      ⟨[("user.created", "E1")],
        [⟨"P1", .mapping [("event", .str "user.created")]⟩]⟩
      (Value.vObj (.cons "event" (Value.vStr "user.created") .nil))
      = some ("E1", MatchKind.eventName) :=
  truthy_eventName_absolute_priority
    ⟨[("user.created", "E1")],
      [⟨"P1", .mapping [("event", .str "user.created")]⟩]⟩
    (Value.vObj (.cons "event" (Value.vStr "user.created") .nil))
    (Value.vStr "user.created") "E1" rfl rfl rfl

/-- Claim C9 — an event whose event-name field is present but falsy never
selects an event-name listener, even when that exact value is a registered
key, because both `shouldHandleAsListener` and the exact-match guard test
truthiness; such an event can only reach pattern listeners (the classifier
sends it to listener dispatch only when pattern listeners exist) or HTTP
routing. -/
theorem falsy_eventName_never_selected (L : Listeners) (evt : Value)
    (v : Value)
    (hf : getField evt "event" = some v)
    (ht : truthy v = false) :
    (∀ h : String, selectListener L evt ≠ some (h, MatchKind.eventName)) ∧
    (shouldHandleAsListener L evt = true → L.patterns ≠ []) := by
  have hen : eventNameLookup L evt = none := by
    simp only [eventNameLookup, hf, ht, Bool.false_eq_true, if_false]
  constructor
  · intro h hcontra
    have hsel : selectListener L evt = scanPatterns evt L.patterns := by
      simp only [selectListener, hen]
    rw [hsel] at hcontra
    have hkind := scanPatterns_kind evt L.patterns h MatchKind.eventName hcontra
    exact absurd hkind (by simp)
  · intro hs heq
    have htf : truthyField evt "event" = false := by
      simp only [truthyField, hf, ht]
    simp [shouldHandleAsListener, htf, heq] at hs

theorem falsy_eventName_never_selected_witness :
    selectListener
      (Listeners.mk [("", "E1")] [⟨"P1", .mapping [("a", .str "1")]⟩])
      (Value.vObj (.cons "event" (Value.vStr "") .nil))
      ≠ some ("E1", MatchKind.eventName) ∧
    (Listeners.mk [("", "E1")]
      [⟨"P1", .mapping [("a", .str "1")]⟩]).patterns ≠ [] :=
  ⟨(falsy_eventName_never_selected
      (Listeners.mk [("", "E1")] [⟨"P1", .mapping [("a", .str "1")]⟩])
      (Value.vObj (.cons "event" (Value.vStr "") .nil))
      (Value.vStr "") rfl rfl).1 "E1",
   (falsy_eventName_never_selected
      (Listeners.mk [("", "E1")] [⟨"P1", .mapping [("a", .str "1")]⟩])
      (Value.vObj (.cons "event" (Value.vStr "") .nil))
      (Value.vStr "") rfl rfl).2 rfl⟩

/-- Claim C4 — in listener mode a handler returning a `FusionResponse`
yields the full HTTP envelope form exactly when the response carries at
least one custom header or a non-200 status; with neither, dispatch
returns the raw body value, not the `{success, matchType, body}`
wrapper. -/
theorem listener_fusion_response_heuristic (L : Listeners)
    (behave : String → ListenerInvoke) (evt : Value)
    (h : String) (mk : MatchKind) (r : FusionResponse)
    (hsel : selectListener L evt = some (h, mk))
    (hret : behave h = ListenerInvoke.returnedFusion r) :
    ((∃ env, handleListener L behave evt = .httpShaped env) ↔
      (r.headers.length > 0 ∨ r.statusCode ≠ 200)) ∧
    (r.headers.length > 0 ∨ r.statusCode ≠ 200 →
      handleListener L behave evt = .httpShaped r.toResponse) ∧
    (r.headers = [] ∧ r.statusCode = 200 →
      handleListener L behave evt = .raw r.body) := by
  have hH : handleListener L behave evt =
      (if r.headers.length > 0 ∨ r.statusCode ≠ 200 then
        ListenerOutput.httpShaped r.toResponse
      else ListenerOutput.raw r.toObject) := by
    simp only [handleListener, hsel, hret]
  by_cases hc : r.headers.length > 0 ∨ r.statusCode ≠ 200
  · refine ⟨⟨fun _ => hc, fun _ => ⟨r.toResponse, ?_⟩⟩, fun _ => ?_, ?_⟩
    · rw [hH, if_pos hc]
    · rw [hH, if_pos hc]
    · rintro ⟨h1, h2⟩
      exact absurd hc (by simp [h1, h2])
  · refine ⟨⟨?_, fun hx => absurd hx hc⟩, fun hx => absurd hx hc, fun _ => ?_⟩
    · rintro ⟨env, henv⟩
      rw [hH, if_neg hc] at henv
      exact ListenerOutput.noConfusion henv
    · rw [hH, if_neg hc]
      rfl

theorem listener_fusion_response_heuristic_witness :
    handleListener ⟨[("x", "E1")], []⟩
      (fun _ => ListenerInvoke.returnedFusion
        ⟨200, [], Value.vObj (.cons "ok" (Value.vBool true) .nil), false⟩)
      (Value.vObj (.cons "event" (Value.vStr "x") .nil))
      = ListenerOutput.raw (Value.vObj (.cons "ok" (Value.vBool true) .nil)) :=
  (listener_fusion_response_heuristic ⟨[("x", "E1")], []⟩
    (fun _ => ListenerInvoke.returnedFusion
      ⟨200, [], Value.vObj (.cons "ok" (Value.vBool true) .nil), false⟩)
    (Value.vObj (.cons "event" (Value.vStr "x") .nil))
    "E1" MatchKind.eventName
    ⟨200, [], Value.vObj (.cons "ok" (Value.vBool true) .nil), false⟩
    rfl rfl).2.2 ⟨rfl, rfl⟩

/-- Claim C3 as stated is refuted by a thrown error carrying the numeric
code 0: the code is present, but `error.code || 500` tests truthiness, so
the envelope's status is 500, not the carried code. -/
theorem zero_code_envelope_counterexample :
    controllerTry { getTable := [("/t", "/c|m")], controllers := ["/c"] }
      ⟨"GET", "/t", [], some "req-1"⟩ (.ok true)
      (.threw ⟨"Zero code", some 0⟩)
      = .error ⟨"Zero code", some 0⟩ ∧
    (handleController { getTable := [("/t", "/c|m")], controllers := ["/c"] }
      ⟨"GET", "/t", [], some "req-1"⟩ (.ok true)
      (.threw ⟨"Zero code", some 0⟩)).statusCode = 500 ∧
    (500 : Int) ≠ 0 :=
  ⟨rfl, rfl, by decide⟩

/-- Claim C3, amended — every exception raised during HTTP dispatch (route
lookup, destination split, controller lookup, resolution, method check, or
handler invocation) is converted into an HTTP error envelope instead of
propagating: its statusCode is the exception's carried numeric code when
present and nonzero (a falsy code falls back to 500, as does an absent
one), and its body is the JSON `{message, requestId}` object (the
`requestId` key present exactly when the event carries one). -/
theorem http_error_envelope (S : ServerModel) (evt : HttpEvent)
    (resolve : ResolveOutcome) (invoke : ControllerInvoke) (e : JsError)
    (herr : controllerTry S evt resolve invoke = .error e) :
    (∀ c : Int, e.code = some c → c ≠ 0 →
        (handleController S evt resolve invoke).statusCode = c) ∧
    ((e.code = none ∨ e.code = some 0) →
        (handleController S evt resolve invoke).statusCode = 500) ∧
    (handleController S evt resolve invoke).body =
      jsonStringify
        (errorBody (jsOrStr e.message "Internal server error")
          evt.requestId) := by
  refine ⟨?_, ?_, ?_⟩
  · intro c hc hc0
    simp only [handleController, herr, statusOfCode, hc]
    simp [hc0]
  · intro hc
    rcases hc with hc | hc
    · simp only [handleController, herr, statusOfCode, hc]
    · simp only [handleController, herr, statusOfCode, hc]
      simp
  · simp only [handleController, herr]

theorem http_error_envelope_witness :
    (handleController { getTable := [("/t", "/c|m")], controllers := ["/c"] }
      ⟨"GET", "/t", [], some "req-1"⟩ (.ok true)
      (.threw ⟨"Forbidden", some 403⟩)).statusCode = 403 ∧
    (handleController { getTable := [("/t", "/c|m")], controllers := ["/c"] }
      ⟨"GET", "/t", [], some "req-1"⟩ (.ok true)
      (.threw ⟨"Forbidden", some 403⟩)).body =
      jsonStringify
        (errorBody (jsOrStr "Forbidden" "Internal server error")
          (some "req-1")) :=
  ⟨(http_error_envelope { getTable := [("/t", "/c|m")], controllers := ["/c"] }
      ⟨"GET", "/t", [], some "req-1"⟩ (.ok true)
      (.threw ⟨"Forbidden", some 403⟩) ⟨"Forbidden", some 403⟩ rfl).1
      403 rfl (by decide),
   (http_error_envelope { getTable := [("/t", "/c|m")], controllers := ["/c"] }
      ⟨"GET", "/t", [], some "req-1"⟩ (.ok true)
      (.threw ⟨"Forbidden", some 403⟩) ⟨"Forbidden", some 403⟩ rfl).2.2⟩

theorem splitChars_ne_nil (sep : Char) : ∀ l : List Char, splitChars sep l ≠ []
  | [] => by simp [splitChars]
  | c :: rest => by
      simp only [splitChars]
      split
      · simp
      · split <;> simp

theorem splitChars_no_sep (sep : Char) :
    ∀ l : List Char, sep ∉ l → splitChars sep l = [l]
  | [], _ => rfl
  | c :: rest, h => by
      have hc : ¬(c = sep) := by
        intro he
        exact h (by simp [he])
      have ih := splitChars_no_sep sep rest (fun hm => h (List.mem_cons_of_mem c hm))
      simp only [splitChars, ih]
      rw [if_neg hc]

theorem splitChars_break (sep : Char) :
    ∀ (xs ys : List Char), sep ∉ xs →
      splitChars sep (xs ++ sep :: ys) = xs :: splitChars sep ys
  | [], ys, _ => by
      simp only [List.nil_append, splitChars]
      cases h : splitChars sep ys with
      | nil => exact absurd h (splitChars_ne_nil sep ys)
      | cons g gs => simp
  | x :: xs, ys, h => by
      have hx : ¬(x = sep) := by
        intro he
        exact h (by simp [he])
      have ih := splitChars_break sep xs ys (fun hm => h (List.mem_cons_of_mem x hm))
      simp only [List.cons_append, splitChars, List.append_eq, ih]
      rw [if_neg hx]

/-- Claim C8 — registering a handler group with base path `/api/items` and
a local GET fragment `/:id` bound to method `m` produces a route-table
entry under key `/api/items/:id` whose destination, decomposed by the
dispatcher's split-on-`|` rule, is exactly the pair (`/api/items`, m)
(for the actual method names of the source: nonempty and free of `|`). -/
theorem route_key_roundtrip (m : String) (hm : m ≠ "") (hbar : '|' ∉ m.data) :
    objLookup
      (buildVerbTable
        [controllerTransform "/api/items" (applyGet (some "/:id") m [])])
      "/api/items/:id" = some ("/api/items" ++ "|" ++ m) ∧
    splitRoute ("/api/items" ++ "|" ++ m) = some ("/api/items", m) := by
  constructor
  · rfl
  · have hdata : ("/api/items" ++ "|" ++ m).data =
        "/api/items".data ++ '|' :: m.data := by
      rw [String.data_append, String.data_append]
      simp
    have hsplit : (splitChars '|' ("/api/items" ++ "|" ++ m).data).map String.mk
        = ["/api/items", m] := by
      rw [hdata, splitChars_break '|' "/api/items".data m.data (by decide),
        splitChars_no_sep '|' m.data hbar]
      rfl
    simp only [splitRoute, hsplit]
    rw [if_neg]
    intro hcontra
    rcases hcontra with hcontra | hcontra
    · exact absurd hcontra (by decide)
    · exact hm hcontra

theorem route_key_roundtrip_witness :
    objLookup
      (buildVerbTable
        [controllerTransform "/api/items" (applyGet (some "/:id") "getItem" [])])
      "/api/items/:id" = some ("/api/items" ++ "|" ++ "getItem") ∧
    splitRoute ("/api/items" ++ "|" ++ "getItem") = some ("/api/items", "getItem") :=
  route_key_roundtrip "getItem" (by decide) (by decide)
